import Mathlib

/-!
Shallow embedding of the lockchain-zfs core (crates/lockchain-core) in Lean 4:
the keyfile codec (keyfile.rs), configuration accessors (config.rs), the error
taxonomy (error.rs), and the unlock orchestration service (service.rs).

Bytes are modelled as `Nat` values below 256.  File I/O is modelled by an
explicit file-system map `FileSys`, environment lookup by an `Option String`,
and the external crates `sha2` and `pbkdf2` by a record of function parameters
(`CryptoPrims`).  Side effects performed by the service (file reads, key-file
rewrites, provider key loads, fallback derivations) are recorded in an
explicit effect trace.  Sleep timing and the jitter arithmetic of the retry
loop affect only real-time delay, which has no observable effect in this
model; the attempt accounting of the retry loop is modelled exactly.
-/

namespace Lockchain

/-- A byte, as in Rust `u8`: a natural number below 256. -/
abbrev Byte := Nat

/-- Rust `u8::is_ascii_whitespace`: space, horizontal tab, newline,
form feed, carriage return. -/
def isAsciiWhitespaceByte (b : Byte) : Bool :=
  b == 0x20 || b == 0x09 || b == 0x0a || b == 0x0c || b == 0x0d

/-- Rust `u8::is_ascii_hexdigit`: 0-9, a-f, A-F. -/
def isAsciiHexdigitByte (b : Byte) : Bool :=
  (0x30 ≤ b && b ≤ 0x39) || (0x61 ≤ b && b ≤ 0x66) || (0x41 ≤ b && b ≤ 0x46)

/-- Numeric value of an ASCII hex digit byte. -/
def hexDigitVal (b : Byte) : Nat :=
  if 0x30 ≤ b && b ≤ 0x39 then b - 0x30
  else if 0x61 ≤ b && b ≤ 0x66 then b - 0x57
  else if 0x41 ≤ b && b ≤ 0x46 then b - 0x37
  else 0

/-- Lower-case ASCII hex digit byte for a nibble value. -/
def hexDigitByte (n : Nat) : Byte :=
  if n < 10 then 0x30 + n else 0x57 + n

/-- Hex-encode one byte as two lower-case ASCII digit bytes
(as the encoder of the `hex` crate does). -/
def hexEncodeByte (b : Byte) : List Byte :=
  [hexDigitByte (b / 16), hexDigitByte (b % 16)]

/-- Model of `hex::encode` restricted to byte lists: lower-case digits, two per byte. -/
def hexEncodeBytes (bs : List Byte) : List Byte :=
  bs.flatMap hexEncodeByte

/-- Decode a list of ASCII hex digit bytes, two digits per output byte;
with `none` on odd length or a non-digit (the byte-level decoder of the `hex` crate). -/
def hexDecodePairs : List Byte → Option (List Byte)
  | [] => some []
  | [_] => none
  | hi :: lo :: rest =>
    if isAsciiHexdigitByte hi && isAsciiHexdigitByte lo then
      (hexDecodePairs rest).map (fun tl => (hexDigitVal hi * 16 + hexDigitVal lo) :: tl)
    else none

/-- Character-level ASCII hex digit test (for config strings). -/
def isAsciiHexdigitChar (c : Char) : Bool :=
  isAsciiHexdigitByte c.toNat

/-- Lower-case one ASCII character, as Rust ASCII case folding does. -/
def asciiLower (c : Char) : Char :=
  if 'A' ≤ c && c ≤ 'Z' then Char.ofNat (c.toNat + 32) else c

/-- Rust `str::eq_ignore_ascii_case`. -/
def eqIgnoreAsciiCase (a b : String) : Bool :=
  a.data.map asciiLower == b.data.map asciiLower

/-- Model of `Vec::from_hex` on a string (the `hex` crate): even length first
(else "Odd number of digits"), then each character must be an ASCII hex
digit; errors carry a display string. -/
def fromHexChars : List Char → Option (List Byte)
  | [] => some []
  | [_] => none
  | hi :: lo :: rest =>
    if isAsciiHexdigitChar hi && isAsciiHexdigitChar lo then
      (fromHexChars rest).map
        (fun tl => (hexDigitVal hi.toNat * 16 + hexDigitVal lo.toNat) :: tl)
    else none

/-- Model of `Vec::from_hex` on a configuration string. -/
def fromHex (s : String) : Option (List Byte) :=
  fromHexChars s.data

/-- Render one byte as two lower-case hex characters (Rust `{:02x}`). -/
def byteHex02 (b : Byte) : String :=
  String.mk [Char.ofNat (hexDigitByte (b / 16)), Char.ofNat (hexDigitByte (b % 16))]

/-- Render a byte list as a lower-case hex string (`hex::encode`). -/
def hexEncodeString (bs : List Byte) : String :=
  String.mk ((hexEncodeBytes bs).map Char.ofNat)

/-- Kind of a `std::io::Error`, as far as the core inspects it
(`kind() == ErrorKind::NotFound`). -/
inductive IoErrorKind where
  | notFound
  | permissionDenied
  | otherKind (detail : String)
deriving DecidableEq, Repr

/-- A `std::io::Error`: its kind and its display text. -/
structure IoErr where
  kind : IoErrorKind
  msg : String
deriving DecidableEq, Repr

/-- The `LockchainError` type from error.rs (config-parse variants omitted: the
service never produces them). -/
inductive LockchainError where
  | ioError (e : IoErr)
  | invalidConfig (msg : String)
  | datasetNotConfigured (dataset : String)
  | missingKeySource (dataset : String)
  | invalidHexKey (path : String) (reason : String)
  | provider (msg : String)
  | retryExhausted (attempts : Nat) (lastError : String)
deriving DecidableEq, Repr

namespace LockchainError

/-- The `thiserror` display text of each error variant. -/
def display : LockchainError → String
  | .ioError e => "[LC1000] io error: " ++ e.msg
  | .invalidConfig m => "[LC1100] configuration error: " ++ m
  | .datasetNotConfigured ds => "[LC1200] dataset `" ++ ds ++ "` is not declared in policy"
  | .missingKeySource ds => "[LC1201] no key source configured for dataset `" ++ ds ++ "`"
  | .invalidHexKey p r => "[LC1300] failed to decode hex key at " ++ p ++ ": " ++ r
  | .provider m => "[LC2000] provider error: " ++ m
  | .retryExhausted a l =>
      "[LC3000] unlock retries exhausted after " ++ toString a ++ " attempts: " ++ l

/-- Rust `matches!(&err, LockchainError::Io(_))`. -/
def isIo : LockchainError → Bool
  | .ioError _ => true
  | _ => false

/-- Rust test for an I/O error whose kind is `ErrorKind::NotFound`. -/
def isIoNotFound : LockchainError → Bool
  | .ioError e => e.kind == .notFound
  | _ => false

end LockchainError

/-- The `invalid_key` helper from keyfile.rs. -/
def invalidKey (path : String) (reason : String) : LockchainError :=
  .invalidHexKey path reason

/-- The filtering loop of `decode_key_bytes` from keyfile.rs: drop ASCII
whitespace, fail on the first byte that is not an ASCII hex digit. -/
def decodeFilter (origin : String) : List Byte → Except LockchainError (List Byte)
  | [] => .ok []
  | b :: rest =>
    if isAsciiWhitespaceByte b then decodeFilter origin rest
    else if !isAsciiHexdigitByte b then
      .error (invalidKey origin ("found non-hex byte 0x" ++ byteHex02 b))
    else (decodeFilter origin rest).map (fun tl => b :: tl)

/-- Function `decode_key_bytes` from keyfile.rs: accept a 32-byte binary key as-is,
else strip ASCII whitespace and require exactly 64 ASCII hex digits. -/
def decode_key_bytes (origin : String) (bytes : List Byte) :
    Except LockchainError (List Byte × Bool) :=
  if bytes.length == 32 then .ok (bytes, false)
  else if bytes.isEmpty then .error (invalidKey origin "file is empty")
  else
    match decodeFilter origin bytes with
    | .error e => .error e
    | .ok filtered =>
      if filtered.isEmpty then .error (invalidKey origin "file is empty")
      else if filtered.length != 64 then
        .error (invalidKey origin
          ("hex key must contain exactly 64 hex digits (got " ++
            toString filtered.length ++ ")"))
      else
        match hexDecodePairs filtered with
        | none => .error (invalidKey origin "hex decode failed: invalid hex")
        | some key =>
          if key.length != 32 then
            .error (invalidKey origin
              ("decoded key must be 32 bytes (got " ++ toString key.length ++ ")"))
          else .ok (key, true)

/-- A file system for key files: reading a path yields bytes or an I/O
error; writes performed by the service update the map. -/
def FileSys := String → Except IoErr (List Byte)

/-- Function `read_key_file` from keyfile.rs: read the path, then decode. -/
def read_key_file (fs : FileSys) (path : String) :
    Except LockchainError (List Byte × Bool) :=
  match fs path with
  | .error e => .error (.ioError e)
  | .ok contents => decode_key_bytes path contents

/-- Function `write_raw_key_file` from keyfile.rs, on the file-system model: the
path now holds exactly the raw key bytes.  (The source also creates parent
directories and sets mode 0400; the mode is recorded in the effect trace.) -/
def write_raw_key_file (fs : FileSys) (path : String) (key : List Byte) : FileSys :=
  fun p => if p == path then .ok key else fs p

/-- Struct `Policy` from config.rs (fields the core service reads). -/
structure Policy where
  datasets : List String
deriving DecidableEq, Repr

/-- Struct `Usb` from config.rs (fields the core service reads). -/
structure Usb where
  key_hex_path : String
  expected_sha256 : Option String
deriving DecidableEq, Repr

/-- Struct `Fallback` from config.rs (fields the core service reads). -/
structure Fallback where
  enabled : Bool
  passphrase_salt : Option String
  passphrase_xor : Option String
  passphrase_iters : Nat
deriving DecidableEq, Repr

/-- Struct `RetryCfg` from config.rs.  `jitter_ratio` is a float affecting only
sleep durations, which are unobservable in this model, so it is omitted. -/
structure RetryCfg where
  max_attempts : Nat
  base_delay_ms : Nat
  max_delay_ms : Nat
deriving DecidableEq, Repr

/-- Struct `LockchainConfig` from config.rs (fields the core service reads). -/
structure LockchainConfig where
  policy : Policy
  usb : Usb
  fallback : Fallback
  retry : RetryCfg
deriving DecidableEq, Repr

namespace LockchainConfig

/-- Method `contains_dataset` from config.rs. -/
def contains_dataset (cfg : LockchainConfig) (dataset : String) : Bool :=
  cfg.policy.datasets.any (fun d => d == dataset)

/-- Method `key_hex_path` from config.rs: the `LOCKCHAIN_KEY_PATH` environment
variable, when set and non-empty, overrides the configured path.  `env`
models the result of `env::var(KEY_PATH_ENV)`. -/
def key_hex_path (cfg : LockchainConfig) (env : Option String) : String :=
  match env with
  | some overridePath => if overridePath != "" then overridePath else cfg.usb.key_hex_path
  | none => cfg.usb.key_hex_path

end LockchainConfig

/-- Struct `UnlockOptions` from service.rs.  The fallback passphrase is modelled
directly as its byte content (`String::into_bytes` in the source). -/
structure UnlockOptions where
  strict_usb : Bool
  fallback_passphrase : Option (List Byte)
  key_override : Option (List Byte)
deriving DecidableEq, Repr

/-- Struct `UnlockReport` from service.rs. -/
structure UnlockReport where
  dataset : String
  encryption_root : String
  unlocked : List String
  already_unlocked : Bool
deriving DecidableEq, Repr

/-- The `ZfsProvider` trait (provider.rs), modelled over a provider state
`σ`: `encryption_root`, `locked_descendants` and `describe_datasets` are
queries of the current state; `load_key_tree` may change it. -/
structure ZfsProvider (σ : Type) where
  encryption_root : σ → String → Except LockchainError String
  locked_descendants : σ → String → Except LockchainError (List String)
  load_key_tree : σ → String → List Byte → Except LockchainError (List String) × σ

/-- Models of the external crypto crates used by service.rs: `Sha256::digest`
from `sha2`, and `pbkdf2_hmac::<Sha256>` from `pbkdf2` (arguments:
password, salt, rounds, output length). -/
structure CryptoPrims where
  sha256 : List Byte → List Byte
  pbkdf2_hmac_sha256 : List Byte → List Byte → Nat → Nat → List Byte

/-- Observable side effects of one service call, in order. -/
inductive Effect where
  | readFile (path : String)
  | writeRawKeyFile (path : String) (bytes : List Byte) (mode : Nat)
  | loadKeyTree (root : String) (key : List Byte)
  | fallbackDerive
deriving DecidableEq, Repr

/-- Mutable world a service call threads through: provider state and the
file system. -/
structure SvcState (σ : Type) where
  prov : σ
  fs : FileSys

/-- Method `LockchainService::verify_checksum` from service.rs. -/
def verify_checksum (cfg : LockchainConfig) (crypto : CryptoPrims) (key : List Byte) :
    Except LockchainError Unit :=
  match cfg.usb.expected_sha256 with
  | some expected =>
    let actual := hexEncodeString (crypto.sha256 key)
    if !eqIgnoreAsciiCase expected actual then
      .error (.invalidConfig
        ("usb.expected_sha256 mismatch: expected " ++ expected ++ ", got " ++ actual))
    else .ok ()
  | none => .ok ()

/-- Method `LockchainService::load_usb_key` from service.rs: read and decode, and
when the on-disk material was hex-encoded, rewrite it in place as raw
bytes with mode 0400 (0o400 = 256). -/
def load_usb_key (fs : FileSys) (path : String) :
    Except LockchainError (List Byte) × FileSys × List Effect :=
  match read_key_file fs path with
  | .error e => (.error e, fs, [.readFile path])
  | .ok (key, converted) =>
    if converted then
      (.ok key, write_raw_key_file fs path key,
        [.readFile path, .writeRawKeyFile path key 256])
    else (.ok key, fs, [.readFile path])

/-- Method `LockchainService::derive_fallback_key` from service.rs. -/
def derive_fallback_key (cfg : LockchainConfig) (crypto : CryptoPrims)
    (passphrase : List Byte) : Except LockchainError (List Byte) :=
  match cfg.fallback.passphrase_salt with
  | none => .error (.invalidConfig "fallback.passphrase_salt missing")
  | some salt_hex =>
    match cfg.fallback.passphrase_xor with
    | none => .error (.invalidConfig "fallback.passphrase_xor missing")
    | some xor_hex =>
      match fromHex salt_hex with
      | none => .error (.invalidConfig "invalid fallback.passphrase_salt: bad hex")
      | some salt =>
        match fromHex xor_hex with
        | none => .error (.invalidConfig "invalid fallback.passphrase_xor: bad hex")
        | some cipher =>
          if cipher.length != 32 then
            .error (.invalidConfig
              ("fallback.passphrase_xor length must be 32 bytes, got " ++
                toString cipher.length))
          else
            let iterations := max cfg.fallback.passphrase_iters 1
            let derived := crypto.pbkdf2_hmac_sha256 passphrase salt iterations cipher.length
            .ok (List.zipWith Nat.xor cipher derived)

/-- Method `LockchainService::key_material` from service.rs: key-override first,
then the USB key file (with checksum verification), then — only while the
USB read failed with an I/O error, strict mode is off and fallback is
enabled — the fallback passphrase. -/
def key_material (cfg : LockchainConfig) (crypto : CryptoPrims) (fs : FileSys)
    (env : Option String) (dataset : String) (options : UnlockOptions) :
    Except LockchainError (List Byte) × FileSys × List Effect :=
  match options.key_override with
  | some raw => (.ok raw, fs, [])
  | none =>
    let usb_key_path := cfg.key_hex_path env
    match load_usb_key fs usb_key_path with
    | (.ok key, fs', tr) =>
      match verify_checksum cfg crypto key with
      | .error e => (.error e, fs', tr)
      | .ok _ => (.ok key, fs', tr)
    | (.error err, fs', tr) =>
      let io_error := err.isIo
      let missing := err.isIoNotFound
      if !io_error || options.strict_usb || !cfg.fallback.enabled then
        (.error (if missing then .missingKeySource dataset else err), fs', tr)
      else
        match options.fallback_passphrase with
        | none => (.error (.missingKeySource dataset), fs', tr)
        | some pass =>
          match derive_fallback_key cfg crypto pass with
          | .error e => (.error e, fs', tr ++ [.fallbackDerive])
          | .ok key => (.ok key, fs', tr ++ [.fallbackDerive])

/-- Method `LockchainService::perform_unlock` from service.rs. -/
def perform_unlock {σ : Type} (cfg : LockchainConfig) (P : ZfsProvider σ)
    (crypto : CryptoPrims) (env : Option String) (dataset : String)
    (options : UnlockOptions) (st : SvcState σ) :
    Except LockchainError UnlockReport × SvcState σ × List Effect :=
  if !cfg.contains_dataset dataset then
    (.error (.datasetNotConfigured dataset), st, [])
  else
    match P.encryption_root st.prov dataset with
    | .error e => (.error e, st, [])
    | .ok root =>
      match P.locked_descendants st.prov root with
      | .error e => (.error e, st, [])
      | .ok locked_before =>
        if !locked_before.any (fun ds => ds == root) then
          (.ok ⟨dataset, root, [], true⟩, st, [])
        else
          match key_material cfg crypto st.fs env dataset options with
          | (.error e, fs', tr) => (.error e, ⟨st.prov, fs'⟩, tr)
          | (.ok key, fs', tr) =>
            match P.load_key_tree st.prov root key with
            | (.error e, prov') =>
              (.error e, ⟨prov', fs'⟩, tr ++ [.loadKeyTree root key])
            | (.ok unlocked, prov') =>
              match P.locked_descendants prov' root with
              | .error e => (.error e, ⟨prov', fs'⟩, tr ++ [.loadKeyTree root key])
              | .ok locked_after =>
                if locked_after.any (fun ds => ds == root) then
                  (.error (.provider
                      ("encryption root " ++ root ++ " still locked after load-key")),
                    ⟨prov', fs'⟩, tr ++ [.loadKeyTree root key])
                else
                  (.ok ⟨dataset, root, unlocked, false⟩, ⟨prov', fs'⟩,
                    tr ++ [.loadKeyTree root key])

/-- Method `LockchainService::unlock` from service.rs: a single attempt. -/
def unlock {σ : Type} (cfg : LockchainConfig) (P : ZfsProvider σ)
    (crypto : CryptoPrims) (env : Option String) (dataset : String)
    (options : UnlockOptions) (st : SvcState σ) :
    Except LockchainError UnlockReport × SvcState σ × List Effect :=
  perform_unlock cfg P crypto env dataset options st

/-- The state transformation of one unlock attempt (used to phrase the
retry-loop theorems). -/
def attempt_step {σ : Type} (cfg : LockchainConfig) (P : ZfsProvider σ)
    (crypto : CryptoPrims) (env : Option String) (dataset : String)
    (options : UnlockOptions) (st : SvcState σ) : SvcState σ :=
  (perform_unlock cfg P crypto env dataset options st).2.1

/-- The loop body of `LockchainService::unlock_with_retry` from
service.rs.  Here `attempt` is the count of attempts already made; the
unbounded source `loop` terminates because `attempt` strictly increases and the
loop returns once `attempt >= policy.max_attempts`, so `fuel`, consumed
one unit per retry, makes the recursion structural; callers pass
`fuel = max_attempts`, which the exhaustion guard keeps from running out.
Sleeping and the backoff-delay arithmetic have no observable effect here. -/
def unlock_with_retry_go {σ : Type} (cfg : LockchainConfig) (P : ZfsProvider σ)
    (crypto : CryptoPrims) (env : Option String) (dataset : String)
    (options : UnlockOptions) :
    Nat → Nat → SvcState σ → Except LockchainError UnlockReport × SvcState σ
  | fuel, attempt, st =>
    let a := attempt + 1
    match perform_unlock cfg P crypto env dataset options st with
    | (.ok report, st', _) => (.ok report, st')
    | (.error err, st', _) =>
      if cfg.retry.max_attempts ≤ a then
        (.error (.retryExhausted a err.display), st')
      else
        match fuel with
        | 0 => (.error (.retryExhausted a err.display), st')
        | fuel' + 1 => unlock_with_retry_go cfg P crypto env dataset options fuel' a st'

/-- Method `LockchainService::unlock_with_retry` from service.rs. -/
def unlock_with_retry {σ : Type} (cfg : LockchainConfig) (P : ZfsProvider σ)
    (crypto : CryptoPrims) (env : Option String) (dataset : String)
    (options : UnlockOptions) (st : SvcState σ) :
    Except LockchainError UnlockReport × SvcState σ :=
  unlock_with_retry_go cfg P crypto env dataset options cfg.retry.max_attempts 0 st


/-! ### Concrete fixtures (used by counterexamples and witnesses) -/

namespace Fix

/-- Crypto model with constant digests: digest is 32 zero bytes, the
PBKDF2 pad is filled with the byte 7. -/
def crypto : CryptoPrims :=
  ⟨fun _ => List.replicate 32 0, fun _ _ _ n => List.replicate n 7⟩

/-- File system where every read fails with NotFound. -/
def fsNotFound : FileSys :=
  fun _ => .error ⟨.notFound, "No such file or directory (os error 2)"⟩

/-- File system where every read fails with PermissionDenied. -/
def fsPermDenied : FileSys :=
  fun _ => .error ⟨.permissionDenied, "Permission denied (os error 13)"⟩

/-- The all-0xab 32-byte test key. -/
def key : List Byte := List.replicate 32 0xab

/-- File system holding the hex encoding of `key` at the default path. -/
def fsHexKey : FileSys :=
  fun p => if p == "/run/lockchain/key.hex" then .ok (hexEncodeBytes key)
    else .error ⟨.notFound, "No such file or directory (os error 2)"⟩

/-- Baseline configuration: one dataset, default key path, no checksum,
fallback disabled, three retry attempts. -/
def cfg : LockchainConfig :=
  { policy := ⟨["tank/secure"]⟩
  , usb := ⟨"/run/lockchain/key.hex", none⟩
  , fallback := ⟨false, none, none, 1⟩
  , retry := ⟨3, 500, 5000⟩ }

/-- Configuration with `retry.max_attempts = 2`. -/
def cfgRetry2 : LockchainConfig :=
  { cfg with retry := ⟨2, 1, 2⟩ }

/-- Configuration with fallback enabled: salt `"00"`, masked value 64 hex
zeros (32 zero bytes), one iteration. -/
def cfgFallback : LockchainConfig :=
  { cfg with fallback :=
      ⟨true, some "00",
        some "0000000000000000000000000000000000000000000000000000000000000000", 1⟩ }

/-- Configuration with a checksum that can never match `crypto`. -/
def cfgChecksum : LockchainConfig :=
  { cfgFallback with usb := ⟨"/run/lockchain/key.hex", some "ff"⟩ }

/-- Default unlock options. -/
def opts : UnlockOptions := ⟨false, none, none⟩

/-- Options with a fallback passphrase supplied. -/
def optsPass : UnlockOptions := ⟨false, some [1, 2, 3], none⟩

/-- Options with a key override supplied. -/
def optsOverride : UnlockOptions := ⟨false, none, some (List.replicate 32 0)⟩

/-- Provider whose root resolution always fails. -/
def provFail : ZfsProvider Unit :=
  ⟨fun _ _ => .error (.provider "boom"), fun _ _ => .ok [],
    fun s _ _ => (.error (.provider "boom"), s)⟩

/-- Provider reporting the root already unlocked. -/
def provUnlocked : ZfsProvider Unit :=
  ⟨fun _ _ => .ok "tank/secure", fun _ _ => .ok [], fun s _ _ => (.ok [], s)⟩

/-- Provider whose root stays locked even after a successful key load. -/
def provStuck : ZfsProvider Unit :=
  ⟨fun _ _ => .ok "tank/secure", fun _ _ => .ok ["tank/secure"],
    fun s _ _ => (.ok ["tank/secure"], s)⟩

/-- Provider mirroring the test double `MockProvider::with_failures`:
state is (remaining simulated failures, root still locked). -/
def provCount : ZfsProvider (Nat × Bool) :=
  { encryption_root := fun _ _ => .ok "tank/secure"
  , locked_descendants := fun s _ => .ok (if s.2 then ["tank/secure"] else [])
  , load_key_tree := fun s _ _ =>
      match s.1 with
      | n + 1 => (.error (.provider "simulated failure"), (n, s.2))
      | 0 => (.ok ["tank/secure"], (0, false)) }

end Fix

/-! ### Helper lemmas about the USB key loading path -/

/-- Shape of `load_usb_key`: it reads the path, and on a hex-encoded key
also rewrites the file as raw bytes with mode 0400. -/
theorem load_usb_key_shape (fs : FileSys) (path : String) :
    (∃ e, load_usb_key fs path = (.error e, fs, [.readFile path]))
    ∨ (∃ key, load_usb_key fs path = (.ok key, fs, [.readFile path]))
    ∨ (∃ key, load_usb_key fs path =
        (.ok key, write_raw_key_file fs path key,
          [.readFile path, .writeRawKeyFile path key 256])) := by
  unfold load_usb_key
  cases h : read_key_file fs path with
  | error e => exact .inl ⟨e, rfl⟩
  | ok kv =>
    obtain ⟨key, conv⟩ := kv
    cases conv
    · exact .inr (.inl ⟨key, rfl⟩)
    · exact .inr (.inr ⟨key, rfl⟩)

/-- The trace of `load_usb_key` starts with the file read. -/
theorem load_usb_key_trace_head (fs : FileSys) (path : String) :
    ∃ rest, (load_usb_key fs path).2.2 = Effect.readFile path :: rest := by
  rcases load_usb_key_shape fs path with ⟨e, h⟩ | ⟨key, h⟩ | ⟨key, h⟩ <;>
    rw [h] <;> exact ⟨_, rfl⟩

/-- `load_usb_key` never performs a fallback derivation. -/
theorem load_usb_key_no_fallback (fs : FileSys) (path : String) :
    Effect.fallbackDerive ∉ (load_usb_key fs path).2.2 := by
  rcases load_usb_key_shape fs path with ⟨e, h⟩ | ⟨key, h⟩ | ⟨key, h⟩ <;>
    rw [h] <;> simp

/-! ### C4, C5: the unlock state machine -/

/-- C4: for a configured dataset whose resolved encryption root is not
among the locked descendants, `unlock` returns `already_unlocked = true`
with an empty `unlocked` list, performs no key resolution, file access,
fallback derivation or `load_key_tree` call (empty effect trace), leaves
the provider state and file system unchanged, and a repeated call yields
the same report. -/
theorem unlock_already_unlocked_is_noop {σ : Type} (cfg : LockchainConfig)
    (P : ZfsProvider σ) (crypto : CryptoPrims) (env : Option String)
    (dataset root : String) (locked : List String) (options : UnlockOptions)
    (st : SvcState σ)
    (hconf : cfg.contains_dataset dataset = true)
    (hroot : P.encryption_root st.prov dataset = .ok root)
    (hlocked : P.locked_descendants st.prov root = .ok locked)
    (hnot : locked.any (fun ds => ds == root) = false) :
    unlock cfg P crypto env dataset options st =
      (.ok ⟨dataset, root, [], true⟩, st, ([] : List Effect))
    ∧ unlock cfg P crypto env dataset options
        (unlock cfg P crypto env dataset options st).2.1 =
      (.ok ⟨dataset, root, [], true⟩, st, ([] : List Effect)) := by
  have h1 : unlock cfg P crypto env dataset options st =
      (.ok ⟨dataset, root, [], true⟩, st, ([] : List Effect)) := by
    unfold unlock perform_unlock
    simp [hconf, hroot, hlocked, hnot]
  exact ⟨h1, by rw [h1]; exact h1⟩

/-- C5: when the re-query of `locked_descendants` after a successful
`load_key_tree` still contains the root, `unlock` fails with the
`ProviderError` naming the still-locked root; it never reports success
with `already_unlocked = false` in that situation. -/
theorem unlock_fails_when_root_still_locked {σ : Type} (cfg : LockchainConfig)
    (P : ZfsProvider σ) (crypto : CryptoPrims) (env : Option String)
    (dataset root : String) (locked0 locked1 unlocked : List String)
    (key : List Byte) (fs' : FileSys) (tr : List Effect) (prov' : σ)
    (options : UnlockOptions) (st : SvcState σ)
    (hconf : cfg.contains_dataset dataset = true)
    (hroot : P.encryption_root st.prov dataset = .ok root)
    (hb : P.locked_descendants st.prov root = .ok locked0)
    (hb' : locked0.any (fun ds => ds == root) = true)
    (hkm : key_material cfg crypto st.fs env dataset options = (.ok key, fs', tr))
    (hload : P.load_key_tree st.prov root key = (.ok unlocked, prov'))
    (ha : P.locked_descendants prov' root = .ok locked1)
    (ha' : locked1.any (fun ds => ds == root) = true) :
    unlock cfg P crypto env dataset options st =
      (.error (.provider ("encryption root " ++ root ++ " still locked after load-key")),
        ⟨prov', fs'⟩, tr ++ [.loadKeyTree root key]) := by
  unfold unlock perform_unlock
  simp [hconf, hroot, hb, hb', hkm, hload, ha, ha']

/-! ### C9: the LOCKCHAIN_KEY_PATH environment override -/

/-- C9: a set, non-empty `LOCKCHAIN_KEY_PATH` environment value overrides
the configured `usb.key_hex_path`, and key resolution without a key
override reads the key file from exactly that overridden path. -/
theorem key_material_trace_head (cfg : LockchainConfig) (crypto : CryptoPrims)
    (fs : FileSys) (env : Option String) (dataset : String)
    (options : UnlockOptions) (hov : options.key_override = none) :
    ∃ rest, (key_material cfg crypto fs env dataset options).2.2 =
        Effect.readFile (cfg.key_hex_path env) :: rest := by
  obtain ⟨rest, hr⟩ := load_usb_key_trace_head fs (cfg.key_hex_path env)
  rcases h : load_usb_key fs (cfg.key_hex_path env) with ⟨res, fs', tr⟩
  rw [h] at hr
  simp only at hr
  simp only [key_material, hov, h]
  cases res with
  | ok key =>
    cases hvc : verify_checksum cfg crypto key <;> simp [hvc, hr]
  | error err =>
    by_cases hc : (err.isIo = false ∨ options.strict_usb = true) ∨ cfg.fallback.enabled = false
    · exact ⟨rest, by simp [hc, hr]⟩
    · cases hfp : options.fallback_passphrase with
      | none => exact ⟨rest, by simp [hc, hfp, hr]⟩
      | some pass =>
        cases hd : derive_fallback_key cfg crypto pass <;>
          exact ⟨rest ++ [Effect.fallbackDerive], by simp [hc, hfp, hd, hr]⟩

/-- C9: a set, non-empty `LOCKCHAIN_KEY_PATH` environment value overrides
the configured `usb.key_hex_path`, and key resolution without a key
override reads the key file from exactly that overridden path. -/
theorem key_hex_path_env_override (cfg : LockchainConfig) (crypto : CryptoPrims)
    (fs : FileSys) (dataset : String) (options : UnlockOptions) (s : String)
    (hs : s ≠ "") (hov : options.key_override = none) :
    cfg.key_hex_path (some s) = s
    ∧ cfg.key_hex_path none = cfg.usb.key_hex_path
    ∧ cfg.key_hex_path (some "") = cfg.usb.key_hex_path
    ∧ ∃ rest, (key_material cfg crypto fs (some s) dataset options).2.2 =
        Effect.readFile s :: rest := by
  have hpath : cfg.key_hex_path (some s) = s := by
    unfold LockchainConfig.key_hex_path
    simp [hs]
  refine ⟨hpath, rfl, by unfold LockchainConfig.key_hex_path; simp, ?_⟩
  obtain ⟨rest, hr⟩ := key_material_trace_head cfg crypto fs (some s) dataset options hov
  exact ⟨rest, by rw [hr, hpath]⟩

/-! ### C3, C10: checksum verification -/

/-- Checksum verification fails with the mismatch `ConfigError` whenever a
configured digest differs (ASCII-case-insensitively) from the actual one. -/
theorem verify_checksum_mismatch (cfg : LockchainConfig) (crypto : CryptoPrims)
    (key : List Byte) (expected : String)
    (hexp : cfg.usb.expected_sha256 = some expected)
    (hne : eqIgnoreAsciiCase expected (hexEncodeString (crypto.sha256 key)) = false) :
    verify_checksum cfg crypto key = .error (.invalidConfig
      ("usb.expected_sha256 mismatch: expected " ++ expected ++ ", got " ++
        hexEncodeString (crypto.sha256 key))) := by
  unfold verify_checksum
  rw [hexp]
  simp [hne]

/-- A decode that reports hex-encoded input yields exactly 32 bytes. -/
theorem decode_key_bytes_hex_length (origin : String) (bytes key : List Byte)
    (h : decode_key_bytes origin bytes = .ok (key, true)) : key.length = 32 := by
  unfold decode_key_bytes at h
  split at h
  · simp at h
  · split at h
    · simp at h
    · split at h
      · simp at h
      · split at h
        · simp at h
        · split at h
          · simp at h
          · split at h
            · simp at h
            · split at h
              · simp at h
              · rename_i hlen
                simp only [Except.ok.injEq, Prod.mk.injEq] at h
                obtain ⟨hk, -⟩ := h
                subst hk
                simpa using hlen

/-- Key resolution when the USB key file reads and decodes but the
configured checksum does not match: the mismatch `ConfigError` is
returned and the fallback passphrase is never consulted. -/
theorem key_material_checksum_mismatch (cfg : LockchainConfig)
    (crypto : CryptoPrims) (fs : FileSys) (env : Option String)
    (dataset : String) (options : UnlockOptions) (key : List Byte) (conv : Bool)
    (expected : String)
    (hov : options.key_override = none)
    (hread : read_key_file fs (cfg.key_hex_path env) = .ok (key, conv))
    (hexp : cfg.usb.expected_sha256 = some expected)
    (hne : eqIgnoreAsciiCase expected (hexEncodeString (crypto.sha256 key)) = false) :
    ∃ fs' tr, key_material cfg crypto fs env dataset options =
      (.error (.invalidConfig ("usb.expected_sha256 mismatch: expected " ++ expected ++
        ", got " ++ hexEncodeString (crypto.sha256 key))), fs', tr)
      ∧ Effect.fallbackDerive ∉ tr := by
  have hvc := verify_checksum_mismatch cfg crypto key expected hexp hne
  cases conv with
  | false =>
    have hl : load_usb_key fs (cfg.key_hex_path env) =
        (.ok key, fs, [.readFile (cfg.key_hex_path env)]) := by
      unfold load_usb_key
      rw [hread]
      simp
    refine ⟨fs, [.readFile (cfg.key_hex_path env)], ?_, by simp⟩
    simp only [key_material, hov, hl, hvc]
  | true =>
    have hl : load_usb_key fs (cfg.key_hex_path env) =
        (.ok key, write_raw_key_file fs (cfg.key_hex_path env) key,
          [.readFile (cfg.key_hex_path env),
            .writeRawKeyFile (cfg.key_hex_path env) key 256]) := by
      unfold load_usb_key
      rw [hread]
      simp
    refine ⟨write_raw_key_file fs (cfg.key_hex_path env) key,
      [.readFile (cfg.key_hex_path env),
        .writeRawKeyFile (cfg.key_hex_path env) key 256], ?_, by simp⟩
    simp only [key_material, hov, hl, hvc]

/-- C3: when the USB key file reads and decodes successfully but the
configured `usb.expected_sha256` does not match the digest of the decoded
key, `unlock` fails with the mismatch `ConfigError` and the fallback
passphrase is never consulted — for every option set without a key
override, including fallback-enabled configurations with a passphrase
supplied. -/
theorem unlock_checksum_mismatch_halts_fallback {σ : Type}
    (cfg : LockchainConfig) (P : ZfsProvider σ) (crypto : CryptoPrims)
    (env : Option String) (dataset root : String) (locked : List String)
    (key : List Byte) (conv : Bool) (expected : String)
    (options : UnlockOptions) (st : SvcState σ)
    (hconf : cfg.contains_dataset dataset = true)
    (hroot : P.encryption_root st.prov dataset = .ok root)
    (hb : P.locked_descendants st.prov root = .ok locked)
    (hb' : locked.any (fun ds => ds == root) = true)
    (hov : options.key_override = none)
    (hread : read_key_file st.fs (cfg.key_hex_path env) = .ok (key, conv))
    (hexp : cfg.usb.expected_sha256 = some expected)
    (hne : eqIgnoreAsciiCase expected (hexEncodeString (crypto.sha256 key)) = false) :
    ∃ fs' tr, unlock cfg P crypto env dataset options st =
      (.error (.invalidConfig ("usb.expected_sha256 mismatch: expected " ++ expected ++
        ", got " ++ hexEncodeString (crypto.sha256 key))), ⟨st.prov, fs'⟩, tr)
      ∧ Effect.fallbackDerive ∉ tr := by
  obtain ⟨fs', tr, hkm, hfd⟩ := key_material_checksum_mismatch cfg crypto st.fs env
    dataset options key conv expected hov hread hexp hne
  refine ⟨fs', tr, ?_, hfd⟩
  unfold unlock perform_unlock
  simp [hconf, hroot, hb, hb', hkm]

/-- C10: when the USB key file is hex-encoded, decodes to 32 bytes, and
the configured checksum does not match, `unlock` still rewrites the key
file in place as the raw 32 decoded bytes with mode 0400 before failing
with the mismatch `ConfigError`. -/
theorem unlock_checksum_mismatch_still_rewrites_keyfile {σ : Type}
    (cfg : LockchainConfig) (P : ZfsProvider σ) (crypto : CryptoPrims)
    (env : Option String) (dataset root : String) (locked : List String)
    (bytes key : List Byte) (expected : String)
    (options : UnlockOptions) (st : SvcState σ)
    (hconf : cfg.contains_dataset dataset = true)
    (hroot : P.encryption_root st.prov dataset = .ok root)
    (hb : P.locked_descendants st.prov root = .ok locked)
    (hb' : locked.any (fun ds => ds == root) = true)
    (hov : options.key_override = none)
    (hbytes : st.fs (cfg.key_hex_path env) = .ok bytes)
    (hdec : decode_key_bytes (cfg.key_hex_path env) bytes = .ok (key, true))
    (hexp : cfg.usb.expected_sha256 = some expected)
    (hne : eqIgnoreAsciiCase expected (hexEncodeString (crypto.sha256 key)) = false) :
    unlock cfg P crypto env dataset options st =
      (.error (.invalidConfig ("usb.expected_sha256 mismatch: expected " ++ expected ++
        ", got " ++ hexEncodeString (crypto.sha256 key))),
        ⟨st.prov, write_raw_key_file st.fs (cfg.key_hex_path env) key⟩,
        [.readFile (cfg.key_hex_path env),
          .writeRawKeyFile (cfg.key_hex_path env) key 256])
    ∧ write_raw_key_file st.fs (cfg.key_hex_path env) key (cfg.key_hex_path env) = .ok key
    ∧ key.length = 32 := by
  have hread : read_key_file st.fs (cfg.key_hex_path env) = .ok (key, true) := by
    unfold read_key_file
    rw [hbytes]
    exact hdec
  have hvc := verify_checksum_mismatch cfg crypto key expected hexp hne
  have hl : load_usb_key st.fs (cfg.key_hex_path env) =
      (.ok key, write_raw_key_file st.fs (cfg.key_hex_path env) key,
        [.readFile (cfg.key_hex_path env),
          .writeRawKeyFile (cfg.key_hex_path env) key 256]) := by
    unfold load_usb_key
    rw [hread]
    simp
  have hkm : key_material cfg crypto st.fs env dataset options =
      (.error (.invalidConfig ("usb.expected_sha256 mismatch: expected " ++ expected ++
        ", got " ++ hexEncodeString (crypto.sha256 key))),
        write_raw_key_file st.fs (cfg.key_hex_path env) key,
        [.readFile (cfg.key_hex_path env),
          .writeRawKeyFile (cfg.key_hex_path env) key 256]) := by
    simp only [key_material, hov, hl, hvc]
  refine ⟨?_, by unfold write_raw_key_file; simp, decode_key_bytes_hex_length _ _ _ hdec⟩
  unfold unlock perform_unlock
  simp [hconf, hroot, hb, hb', hkm]

/-! ### C2: I/O errors and the fallback path -/

/-- Helper: an error that is not an I/O error is not a not-found I/O error. -/
theorem isIoNotFound_false_of_not_isIo (e : LockchainError)
    (h : e.isIo = false) : e.isIoNotFound = false := by
  cases e <;> simp_all [LockchainError.isIo, LockchainError.isIoNotFound]

/-- C2 (amended): when the USB key read fails, the fallback-passphrase
path is reached exactly when the failure is an I/O error of any kind
(not-found, permission-denied, or other), strict mode is off and fallback
is enabled; decode errors always propagate without consulting the
fallback; a not-found failure under strict mode or disabled fallback
surfaces as `MissingKeySource`, while other I/O errors under strict mode
or disabled fallback propagate as themselves. -/
theorem key_material_usb_error_cases (cfg : LockchainConfig)
    (crypto : CryptoPrims) (fs : FileSys) (env : Option String)
    (dataset : String) (options : UnlockOptions) (e : LockchainError)
    (fs' : FileSys) (tr : List Effect)
    (hov : options.key_override = none)
    (hl : load_usb_key fs (cfg.key_hex_path env) = (.error e, fs', tr)) :
    (e.isIo = false →
      key_material cfg crypto fs env dataset options = (.error e, fs', tr))
    ∧ (e.isIo = true → options.strict_usb = true ∨ cfg.fallback.enabled = false →
      key_material cfg crypto fs env dataset options =
        (.error (if e.isIoNotFound then .missingKeySource dataset else e), fs', tr))
    ∧ (e.isIo = true → options.strict_usb = false → cfg.fallback.enabled = true →
      options.fallback_passphrase = none →
      key_material cfg crypto fs env dataset options =
        (.error (.missingKeySource dataset), fs', tr))
    ∧ (∀ pass, e.isIo = true → options.strict_usb = false →
      cfg.fallback.enabled = true → options.fallback_passphrase = some pass →
      key_material cfg crypto fs env dataset options =
        (match derive_fallback_key cfg crypto pass with
          | .error e2 => (.error e2, fs', tr ++ [Effect.fallbackDerive])
          | .ok k => (.ok k, fs', tr ++ [Effect.fallbackDerive])))
    ∧ Effect.fallbackDerive ∉ tr := by
  have hnofb : Effect.fallbackDerive ∉ tr := by
    have := load_usb_key_no_fallback fs (cfg.key_hex_path env)
    rw [hl] at this
    simpa using this
  refine ⟨?_, ?_, ?_, ?_, hnofb⟩
  · intro hio
    simp only [key_material, hov, hl]
    simp [hio, isIoNotFound_false_of_not_isIo e hio]
  · intro hio hsd
    simp only [key_material, hov, hl]
    rcases hsd with hs | hd
    · simp [hs]
    · simp [hd]
  · intro hio hs hd hfp
    simp only [key_material, hov, hl]
    simp [hio, hs, hd, hfp]
  · intro pass hio hs hd hfp
    simp only [key_material, hov, hl]
    cases hder : derive_fallback_key cfg crypto pass <;>
      simp [hio, hs, hd, hfp, hder]

/-! ### C1, C8: the retry loop -/

/-- One-step unfolding of the retry loop body. -/
theorem unlock_with_retry_go_eq {σ : Type} (cfg : LockchainConfig)
    (P : ZfsProvider σ) (crypto : CryptoPrims) (env : Option String)
    (dataset : String) (options : UnlockOptions) (fuel attempt : Nat)
    (st : SvcState σ) :
    unlock_with_retry_go cfg P crypto env dataset options fuel attempt st =
      match perform_unlock cfg P crypto env dataset options st with
      | (.ok report, st', _) => (.ok report, st')
      | (.error err, st', _) =>
        if cfg.retry.max_attempts ≤ attempt + 1 then
          (.error (.retryExhausted (attempt + 1) err.display), st')
        else
          match fuel with
          | 0 => (.error (.retryExhausted (attempt + 1) err.display), st')
          | fuel' + 1 =>
            unlock_with_retry_go cfg P crypto env dataset options fuel' (attempt + 1) st' := by
  rw [unlock_with_retry_go]

/-- Exhaustion behaviour of the retry loop: when every attempt fails, the
loop performs attempts until the attempt counter reaches the policy bound
(at least one attempt) and wraps the display text of the last error in
`RetryExhausted`. -/
theorem unlock_with_retry_go_all_fail {σ : Type} (cfg : LockchainConfig)
    (P : ZfsProvider σ) (crypto : CryptoPrims) (env : Option String)
    (dataset : String) (options : UnlockOptions)
    (E : SvcState σ → LockchainError)
    (hE : ∀ s, (perform_unlock cfg P crypto env dataset options s).1 = .error (E s)) :
    ∀ fuel attempt (st : SvcState σ),
      cfg.retry.max_attempts ≤ attempt + fuel + 1 →
      unlock_with_retry_go cfg P crypto env dataset options fuel attempt st =
        (.error (.retryExhausted (max cfg.retry.max_attempts (attempt + 1))
          ((E ((attempt_step cfg P crypto env dataset options)^[max
              cfg.retry.max_attempts (attempt + 1) - (attempt + 1)] st)).display)),
          (attempt_step cfg P crypto env dataset options)^[max
            cfg.retry.max_attempts (attempt + 1) - attempt] st) := by
  intro fuel
  induction fuel with
  | zero =>
    intro attempt st hle
    have hle' : cfg.retry.max_attempts ≤ attempt + 1 := by omega
    rcases h : perform_unlock cfg P crypto env dataset options st with ⟨res, st', tr⟩
    have hres : res = .error (E st) := by
      have := hE st
      rw [h] at this
      simpa using this
    have hst' : st' = attempt_step cfg P crypto env dataset options st := by
      unfold attempt_step
      rw [h]
    subst hres
    have h1 : max cfg.retry.max_attempts (attempt + 1) = attempt + 1 :=
      Nat.max_eq_right hle'
    rw [unlock_with_retry_go_eq]
    simp only [h, hle', if_true, h1]
    rw [Nat.sub_self, Function.iterate_zero_apply,
      show attempt + 1 - attempt = 1 by omega, Function.iterate_one, ← hst']
  | succ fuel ih =>
    intro attempt st hle
    rcases h : perform_unlock cfg P crypto env dataset options st with ⟨res, st', tr⟩
    have hres : res = .error (E st) := by
      have := hE st
      rw [h] at this
      simpa using this
    have hst' : st' = attempt_step cfg P crypto env dataset options st := by
      unfold attempt_step
      rw [h]
    subst hres
    by_cases hguard : cfg.retry.max_attempts ≤ attempt + 1
    · have h1 : max cfg.retry.max_attempts (attempt + 1) = attempt + 1 :=
        Nat.max_eq_right hguard
      rw [unlock_with_retry_go_eq]
      simp only [h, hguard, if_true, h1]
      rw [Nat.sub_self, Function.iterate_zero_apply,
        show attempt + 1 - attempt = 1 by omega, Function.iterate_one, ← hst']
    · have hlt : attempt + 1 < cfg.retry.max_attempts := by omega
      have hrec := ih (attempt + 1)
        (attempt_step cfg P crypto env dataset options st) (by omega)
      rw [unlock_with_retry_go_eq]
      simp only [h, hguard, if_false]
      rw [hst', hrec]
      have h1 : max cfg.retry.max_attempts (attempt + 1) = cfg.retry.max_attempts :=
        Nat.max_eq_left (by omega)
      have h2 : max cfg.retry.max_attempts (attempt + 2) = cfg.retry.max_attempts :=
        Nat.max_eq_left (by omega)
      have h3 : cfg.retry.max_attempts - (attempt + 1) =
          (cfg.retry.max_attempts - (attempt + 2)) + 1 := by omega
      have h4 : cfg.retry.max_attempts - attempt =
          (cfg.retry.max_attempts - (attempt + 1)) + 1 := by omega
      simp only [show attempt + 1 + 1 = attempt + 2 from rfl, h1, h2, h4, h3,
        Function.iterate_succ_apply]

/-- Recovery behaviour of the retry loop: an attempt that succeeds while
the attempt budget is not exhausted makes the loop return that report. -/
theorem unlock_with_retry_go_succeeds {σ : Type} (cfg : LockchainConfig)
    (P : ZfsProvider σ) (crypto : CryptoPrims) (env : Option String)
    (dataset : String) (options : UnlockOptions) :
    ∀ (k fuel attempt : Nat) (st : SvcState σ) (report : UnlockReport),
      (∀ i, i < k → ∃ e, (perform_unlock cfg P crypto env dataset options
          ((attempt_step cfg P crypto env dataset options)^[i] st)).1 = .error e) →
      (perform_unlock cfg P crypto env dataset options
          ((attempt_step cfg P crypto env dataset options)^[k] st)).1 = .ok report →
      attempt + k + 1 ≤ cfg.retry.max_attempts →
      k ≤ fuel →
      unlock_with_retry_go cfg P crypto env dataset options fuel attempt st =
        (.ok report, (attempt_step cfg P crypto env dataset options)^[k + 1] st) := by
  intro k
  induction k with
  | zero =>
    intro fuel attempt st report hfail hsucc hle hfuel
    rcases h : perform_unlock cfg P crypto env dataset options st with ⟨res, st', tr⟩
    rw [Function.iterate_zero_apply, h] at hsucc
    simp only at hsucc
    subst hsucc
    have hst' : st' = attempt_step cfg P crypto env dataset options st := by
      unfold attempt_step
      rw [h]
    rw [unlock_with_retry_go_eq]
    simp only [h]
    rw [Function.iterate_one, ← hst']
  | succ k ih =>
    intro fuel attempt st report hfail hsucc hle hfuel
    obtain ⟨e, he⟩ := hfail 0 (by omega)
    rw [Function.iterate_zero_apply] at he
    rcases h : perform_unlock cfg P crypto env dataset options st with ⟨res, st', tr⟩
    rw [h] at he
    simp only at he
    subst he
    have hst' : st' = attempt_step cfg P crypto env dataset options st := by
      unfold attempt_step
      rw [h]
    have hguard : ¬ cfg.retry.max_attempts ≤ attempt + 1 := by omega
    cases fuel with
    | zero => omega
    | succ fuel' =>
      rw [unlock_with_retry_go_eq]
      simp only [h, hguard, if_false]
      have hrec := ih fuel' (attempt + 1) (attempt_step cfg P crypto env dataset options st)
        report
        (fun i hi => by
          rw [← Function.iterate_succ_apply]
          exact hfail (i + 1) (by omega))
        (by
          rw [← Function.iterate_succ_apply]
          exact hsucc)
        (by omega) (by omega)
      rw [hst', hrec, ← Function.iterate_succ_apply]

/-- C8: with a provider whose attempts all fail, `unlock_with_retry`
performs exactly `max(retry.max_attempts, 1)` attempts (at least one even
for `max_attempts = 0`) and fails with `RetryExhausted` whose `attempts`
field is that number and whose `last_error` is the display text of the
error of the final attempt; with attempts failing `k < max_attempts`
times and then succeeding, it returns the succeeding report. -/
theorem unlock_with_retry_exhaustion_and_recovery {σ : Type}
    (cfg : LockchainConfig) (P : ZfsProvider σ) (crypto : CryptoPrims)
    (env : Option String) (dataset : String) (options : UnlockOptions)
    (st : SvcState σ) :
    (∀ E : SvcState σ → LockchainError,
      (∀ s, (perform_unlock cfg P crypto env dataset options s).1 = .error (E s)) →
      unlock_with_retry cfg P crypto env dataset options st =
        (.error (.retryExhausted (max cfg.retry.max_attempts 1)
          ((E ((attempt_step cfg P crypto env dataset options)^[max
              cfg.retry.max_attempts 1 - 1] st)).display)),
          (attempt_step cfg P crypto env dataset options)^[max
            cfg.retry.max_attempts 1] st))
    ∧ (∀ (k : Nat) (report : UnlockReport),
      (∀ i, i < k → ∃ e, (perform_unlock cfg P crypto env dataset options
          ((attempt_step cfg P crypto env dataset options)^[i] st)).1 = .error e) →
      (perform_unlock cfg P crypto env dataset options
          ((attempt_step cfg P crypto env dataset options)^[k] st)).1 = .ok report →
      k < cfg.retry.max_attempts →
      unlock_with_retry cfg P crypto env dataset options st =
        (.ok report, (attempt_step cfg P crypto env dataset options)^[k + 1] st)) := by
  constructor
  · intro E hE
    have h := unlock_with_retry_go_all_fail cfg P crypto env dataset options E hE
      cfg.retry.max_attempts 0 st (by omega)
    unfold unlock_with_retry
    simpa using h
  · intro k report hfail hsucc hk
    exact unlock_with_retry_go_succeeds cfg P crypto env dataset options k
      cfg.retry.max_attempts 0 st report hfail hsucc (by omega) (by omega)

/-- C1 (amended): a dataset outside the configured policy set makes a
single `unlock` attempt fail immediately with `DatasetNotConfigured` and
no side effects, but `unlock_with_retry` retries it like any other error:
it performs `max(retry.max_attempts, 1)` attempts and surfaces
`RetryExhausted` wrapping the `DatasetNotConfigured` display text, not
`DatasetNotConfigured` itself. -/
theorem dataset_not_configured_immediate_then_retried {σ : Type}
    (cfg : LockchainConfig) (P : ZfsProvider σ) (crypto : CryptoPrims)
    (env : Option String) (dataset : String) (options : UnlockOptions)
    (st : SvcState σ)
    (h : cfg.contains_dataset dataset = false) :
    perform_unlock cfg P crypto env dataset options st =
      (.error (.datasetNotConfigured dataset), st, ([] : List Effect))
    ∧ unlock_with_retry cfg P crypto env dataset options st =
        (.error (.retryExhausted (max cfg.retry.max_attempts 1)
          (LockchainError.display (.datasetNotConfigured dataset))), st) := by
  have hp : ∀ s : SvcState σ, perform_unlock cfg P crypto env dataset options s =
      (.error (.datasetNotConfigured dataset), s, ([] : List Effect)) := by
    intro s
    unfold perform_unlock
    simp [h]
  have hstep : attempt_step cfg P crypto env dataset options = id := by
    funext s
    simp [attempt_step, hp s]
  refine ⟨hp st, ?_⟩
  have hE : ∀ s : SvcState σ,
      (perform_unlock cfg P crypto env dataset options s).1 =
        .error ((fun _ => LockchainError.datasetNotConfigured dataset) s) :=
    fun s => by rw [hp s]
  have hall := unlock_with_retry_go_all_fail cfg P crypto env dataset options
    (fun _ => LockchainError.datasetNotConfigured dataset) hE
    cfg.retry.max_attempts 0 st (by omega)
  unfold unlock_with_retry
  rw [hall, hstep]
  simp [Function.iterate_id]

/-! ### C6: the key codec -/

/-- A nibble encodes to an ASCII hex digit. -/
theorem hexDigitByte_isHex (n : Nat) (h : n < 16) :
    isAsciiHexdigitByte (hexDigitByte n) = true := by
  interval_cases n <;> decide

/-- A nibble never encodes to ASCII whitespace. -/
theorem hexDigitByte_not_ws (n : Nat) (h : n < 16) :
    isAsciiWhitespaceByte (hexDigitByte n) = false := by
  interval_cases n <;> decide

/-- Decoding inverts encoding on a single nibble. -/
theorem hexDigitVal_hexDigitByte (n : Nat) (h : n < 16) :
    hexDigitVal (hexDigitByte n) = n := by
  interval_cases n <;> decide

/-- The hex encoding of a byte list has twice its length. -/
theorem hexEncodeBytes_length (bs : List Byte) :
    (hexEncodeBytes bs).length = 2 * bs.length := by
  induction bs with
  | nil => rfl
  | cons b rest ih => simp [hexEncodeBytes, hexEncodeByte] at ih ⊢; omega

/-- Every byte of a hex encoding is a non-whitespace ASCII hex digit. -/
theorem mem_hexEncodeBytes (bs : List Byte) (h256 : ∀ b ∈ bs, b < 256) :
    ∀ c ∈ hexEncodeBytes bs,
      isAsciiWhitespaceByte c = false ∧ isAsciiHexdigitByte c = true := by
  induction bs with
  | nil => intro c hc; simp [hexEncodeBytes] at hc
  | cons b rest ih =>
    intro c hc
    have hb : b < 256 := h256 b (List.mem_cons_self b rest)
    have hhi : b / 16 < 16 := Nat.div_lt_of_lt_mul (by exact hb)
    have hlo : b % 16 < 16 := Nat.mod_lt b (by decide)
    simp only [hexEncodeBytes, List.flatMap_cons, hexEncodeByte, List.cons_append,
      List.nil_append, List.mem_cons] at hc
    rcases hc with rfl | rfl | hc
    · exact ⟨hexDigitByte_not_ws _ hhi, hexDigitByte_isHex _ hhi⟩
    · exact ⟨hexDigitByte_not_ws _ hlo, hexDigitByte_isHex _ hlo⟩
    · exact ih (fun x hx => h256 x (List.mem_cons_of_mem _ hx)) c hc

/-- Pair decoding inverts byte-list hex encoding. -/
theorem hexDecodePairs_hexEncodeBytes (bs : List Byte)
    (h256 : ∀ b ∈ bs, b < 256) :
    hexDecodePairs (hexEncodeBytes bs) = some bs := by
  induction bs with
  | nil => rfl
  | cons b rest ih =>
    have hb : b < 256 := h256 b (List.mem_cons_self b rest)
    have hhi : b / 16 < 16 := Nat.div_lt_of_lt_mul (by exact hb)
    have hlo : b % 16 < 16 := Nat.mod_lt b (by decide)
    have hrec := ih (fun x hx => h256 x (List.mem_cons_of_mem _ hx))
    simp only [hexEncodeBytes, List.flatMap_cons, hexEncodeByte, List.cons_append,
      List.nil_append]
    rw [hexDecodePairs]
    simp only [hexDigitByte_isHex _ hhi, hexDigitByte_isHex _ hlo, Bool.and_self,
      if_true]
    rw [show hexEncodeBytes rest = rest.flatMap hexEncodeByte from rfl] at hrec
    rw [hrec]
    simp [hexDigitVal_hexDigitByte _ hhi, hexDigitVal_hexDigitByte _ hlo,
      Nat.div_add_mod']

/-- The filter loop succeeds and strips whitespace when every
non-whitespace byte is a hex digit. -/
theorem decodeFilter_ok (origin : String) (bs : List Byte)
    (h : ∀ b ∈ bs, isAsciiWhitespaceByte b = false → isAsciiHexdigitByte b = true) :
    decodeFilter origin bs = .ok (bs.filter (fun b => !isAsciiWhitespaceByte b)) := by
  induction bs with
  | nil => rfl
  | cons b rest ih =>
    have ih' := ih (fun x hx hw => h x (List.mem_cons_of_mem _ hx) hw)
    by_cases hws : isAsciiWhitespaceByte b = true
    · rw [decodeFilter]
      simp [hws, ih']
    · have hwsf : isAsciiWhitespaceByte b = false := by
        simpa using hws
      have hb : isAsciiHexdigitByte b = true :=
        h b (List.mem_cons_self b rest) hwsf
      rw [decodeFilter]
      simp [hwsf, hb, ih', Except.map]

/-- The filter loop fails with an invalid-key error when some byte is
neither whitespace nor a hex digit. -/
theorem decodeFilter_err (origin : String) (bs : List Byte)
    (h : ∃ b ∈ bs, isAsciiWhitespaceByte b = false ∧ isAsciiHexdigitByte b = false) :
    ∃ r, decodeFilter origin bs = .error (.invalidHexKey origin r) := by
  induction bs with
  | nil => simp at h
  | cons b rest ih =>
    by_cases hws : isAsciiWhitespaceByte b = true
    · have hrest : ∃ x ∈ rest,
          isAsciiWhitespaceByte x = false ∧ isAsciiHexdigitByte x = false := by
        rcases h with ⟨x, hx, hxw, hxh⟩
        rcases List.mem_cons.mp hx with rfl | hx'
        · rw [hws] at hxw; cases hxw
        · exact ⟨x, hx', hxw, hxh⟩
      obtain ⟨r, hr⟩ := ih hrest
      refine ⟨r, ?_⟩
      rw [decodeFilter]
      simp [hws, hr]
    · have hwsf : isAsciiWhitespaceByte b = false := by simpa using hws
      by_cases hhex : isAsciiHexdigitByte b = true
      · have hrest : ∃ x ∈ rest,
            isAsciiWhitespaceByte x = false ∧ isAsciiHexdigitByte x = false := by
          rcases h with ⟨x, hx, hxw, hxh⟩
          rcases List.mem_cons.mp hx with rfl | hx'
          · rw [hhex] at hxh; cases hxh
          · exact ⟨x, hx', hxw, hxh⟩
        obtain ⟨r, hr⟩ := ih hrest
        refine ⟨r, ?_⟩
        rw [decodeFilter]
        simp [hwsf, hhex, hr, Except.map]
      · have hhexf : isAsciiHexdigitByte b = false := by simpa using hhex
        refine ⟨"found non-hex byte 0x" ++ byteHex02 b, ?_⟩
        rw [decodeFilter]
        simp [hwsf, hhexf, invalidKey]

/-- C6: the codec round-trips — a 32-byte buffer decodes to itself with
`was_hex_encoded = false`; any byte stream whose non-whitespace content is
the 64-digit hex encoding of a 32-byte buffer `B` decodes to `(B, true)`;
and every other input (empty after stripping whitespace, containing a
non-whitespace non-hex-digit byte, or with a stripped digit count other
than 64) fails with the invalid-key-encoding error. -/
theorem decode_key_bytes_spec (origin : String) :
    (∀ B : List Byte, B.length = 32 → decode_key_bytes origin B = .ok (B, false))
    ∧ (∀ B s : List Byte, B.length = 32 → (∀ b ∈ B, b < 256) →
        s.filter (fun b => !isAsciiWhitespaceByte b) = hexEncodeBytes B →
        decode_key_bytes origin s = .ok (B, true))
    ∧ (∀ s : List Byte, s.length ≠ 32 →
        (s.filter (fun b => !isAsciiWhitespaceByte b) = []
          ∨ (∃ b ∈ s, isAsciiWhitespaceByte b = false ∧ isAsciiHexdigitByte b = false)
          ∨ (s.filter (fun b => !isAsciiWhitespaceByte b)).length ≠ 64) →
        ∃ r, decode_key_bytes origin s = .error (.invalidHexKey origin r)) := by
  refine ⟨?_, ?_, ?_⟩
  · intro B hB
    unfold decode_key_bytes
    simp [hB]
  · intro B s hB h256 hfil
    have hmem : ∀ b ∈ s, isAsciiWhitespaceByte b = false →
        isAsciiHexdigitByte b = true := by
      intro b hb hw
      have hbf : b ∈ s.filter (fun b => !isAsciiWhitespaceByte b) :=
        List.mem_filter.mpr ⟨hb, by simp [hw]⟩
      rw [hfil] at hbf
      exact (mem_hexEncodeBytes B h256 b hbf).2
    have hdf : decodeFilter origin s = .ok (hexEncodeBytes B) := by
      rw [decodeFilter_ok origin s hmem, hfil]
    have hlen64 : (hexEncodeBytes B).length = 64 := by
      rw [hexEncodeBytes_length, hB]
    have hslen : 64 ≤ s.length := by
      have hle := List.length_filter_le (fun b => !isAsciiWhitespaceByte b) s
      rw [hfil, hlen64] at hle
      exact hle
    have h32 : (s.length == 32) = false := by
      simp only [beq_eq_false_iff_ne, ne_eq]
      omega
    have hne : s.isEmpty = false := by
      cases s with
      | nil => simp at hslen
      | cons a t => rfl
    unfold decode_key_bytes
    rw [h32, hne, hdf]
    simp only [Bool.false_eq_true, if_false]
    have hfe : (hexEncodeBytes B).isEmpty = false := by
      cases hhe : hexEncodeBytes B with
      | nil => rw [hhe] at hlen64; simp at hlen64
      | cons a t => rfl
    rw [hfe]
    simp only [Bool.false_eq_true, if_false, hlen64]
    rw [hexDecodePairs_hexEncodeBytes B h256]
    simp [hB]
  · intro s hlen hcond
    by_cases hs : s = []
    · subst hs
      refine ⟨"file is empty", ?_⟩
      unfold decode_key_bytes
      simp [invalidKey]
    · have h32 : (s.length == 32) = false := by
        simp only [beq_eq_false_iff_ne, ne_eq]
        exact hlen
      have hne : s.isEmpty = false := by
        cases s with
        | nil => exact absurd rfl hs
        | cons a t => rfl
      by_cases hbad : ∃ b ∈ s,
          isAsciiWhitespaceByte b = false ∧ isAsciiHexdigitByte b = false
      · obtain ⟨r, hr⟩ := decodeFilter_err origin s hbad
        refine ⟨r, ?_⟩
        unfold decode_key_bytes
        rw [h32, hne]
        simp only [Bool.false_eq_true, if_false]
        rw [hr]
      · have hmem : ∀ b ∈ s, isAsciiWhitespaceByte b = false →
            isAsciiHexdigitByte b = true := by
          intro b hb hw
          by_contra hh
          exact hbad ⟨b, hb, hw, by simpa using hh⟩
        have hdf := decodeFilter_ok origin s hmem
        by_cases hfe : s.filter (fun b => !isAsciiWhitespaceByte b) = []
        · refine ⟨"file is empty", ?_⟩
          unfold decode_key_bytes
          rw [h32, hne, hdf, hfe]
          simp [invalidKey]
        · have hc64 : (s.filter (fun b => !isAsciiWhitespaceByte b)).length ≠ 64 := by
            rcases hcond with hc | hc | hc
            · exact absurd hc hfe
            · exact absurd hc hbad
            · exact hc
          refine ⟨"hex key must contain exactly 64 hex digits (got " ++
            toString (s.filter (fun b => !isAsciiWhitespaceByte b)).length ++ ")", ?_⟩
          unfold decode_key_bytes
          rw [h32, hne, hdf]
          simp only [Bool.false_eq_true, if_false]
          have hfeb : (s.filter (fun b => !isAsciiWhitespaceByte b)).isEmpty = false := by
            cases hq : s.filter (fun b => !isAsciiWhitespaceByte b) with
            | nil => exact absurd hq hfe
            | cons a t => rfl
          rw [hfeb]
          simp only [Bool.false_eq_true, if_false]
          have : ((s.filter (fun b => !isAsciiWhitespaceByte b)).length != 64) = true := by
            simpa using hc64
          rw [this]
          simp [invalidKey]

/-! ### C7: fallback key derivation -/

/-- C7: `derive_fallback_key` fails exactly when the salt or masked value
is missing from configuration, either is not valid hex, or the decoded
masked value is not 32 bytes — and then always with a `ConfigError`;
otherwise it returns the 32-byte XOR of the decoded masked value with the
PBKDF2-HMAC-SHA-256 pad over `max(passphrase_iters, 1)` rounds.  Being a
pure function of the configuration and passphrase, identical inputs give
identical output. -/
theorem derive_fallback_key_spec (cfg : LockchainConfig) (crypto : CryptoPrims)
    (pass : List Byte)
    (hplen : ∀ p s i n, (crypto.pbkdf2_hmac_sha256 p s i n).length = n) :
    (∀ e, derive_fallback_key cfg crypto pass = .error e → ∃ m, e = .invalidConfig m)
    ∧ ((∃ e, derive_fallback_key cfg crypto pass = .error e) ↔
        (cfg.fallback.passphrase_salt = none ∨ cfg.fallback.passphrase_xor = none
          ∨ (∃ sh, cfg.fallback.passphrase_salt = some sh ∧ fromHex sh = none)
          ∨ (∃ xh, cfg.fallback.passphrase_xor = some xh ∧ fromHex xh = none)
          ∨ (∃ xh c, cfg.fallback.passphrase_xor = some xh ∧ fromHex xh = some c
              ∧ c.length ≠ 32)))
    ∧ (∀ sh xh salt cipher, cfg.fallback.passphrase_salt = some sh →
        cfg.fallback.passphrase_xor = some xh → fromHex sh = some salt →
        fromHex xh = some cipher → cipher.length = 32 →
        derive_fallback_key cfg crypto pass =
          .ok (List.zipWith Nat.xor cipher
            (crypto.pbkdf2_hmac_sha256 pass salt (max cfg.fallback.passphrase_iters 1) 32))
        ∧ (List.zipWith Nat.xor cipher
            (crypto.pbkdf2_hmac_sha256 pass salt
              (max cfg.fallback.passphrase_iters 1) 32)).length = 32) := by
  cases hsalt : cfg.fallback.passphrase_salt with
  | none =>
    have hD : derive_fallback_key cfg crypto pass =
        .error (.invalidConfig "fallback.passphrase_salt missing") := by
      simp only [derive_fallback_key, hsalt]
    refine ⟨?_, ?_, ?_⟩
    · intro e he
      rw [hD] at he
      simp only [Except.error.injEq] at he
      exact ⟨_, he.symm⟩
    · exact ⟨fun _ => .inl rfl, fun _ => ⟨_, hD⟩⟩
    · intro sh xh salt cipher h1
      simp at h1
  | some sh =>
    cases hxor : cfg.fallback.passphrase_xor with
    | none =>
      have hD : derive_fallback_key cfg crypto pass =
          .error (.invalidConfig "fallback.passphrase_xor missing") := by
        simp only [derive_fallback_key, hsalt, hxor]
      refine ⟨?_, ?_, ?_⟩
      · intro e he
        rw [hD] at he
        simp only [Except.error.injEq] at he
        exact ⟨_, he.symm⟩
      · exact ⟨fun _ => .inr (.inl rfl), fun _ => ⟨_, hD⟩⟩
      · intro sh' xh salt cipher h1 h2
        simp at h2
    | some xh =>
      cases hfs : fromHex sh with
      | none =>
        have hD : derive_fallback_key cfg crypto pass =
            .error (.invalidConfig "invalid fallback.passphrase_salt: bad hex") := by
          simp only [derive_fallback_key, hsalt, hxor, hfs]
        refine ⟨?_, ?_, ?_⟩
        · intro e he
          rw [hD] at he
          simp only [Except.error.injEq] at he
          exact ⟨_, he.symm⟩
        · refine ⟨fun _ => .inr (.inr (.inl ⟨sh, rfl, hfs⟩)), fun _ => ⟨_, hD⟩⟩
        · intro sh' xh' salt cipher h1 h2 h3
          injection h1 with h1
          subst h1
          rw [h3] at hfs
          simp at hfs
      | some salt =>
        cases hfx : fromHex xh with
        | none =>
          have hD : derive_fallback_key cfg crypto pass =
              .error (.invalidConfig "invalid fallback.passphrase_xor: bad hex") := by
            simp only [derive_fallback_key, hsalt, hxor, hfs, hfx]
          refine ⟨?_, ?_, ?_⟩
          · intro e he
            rw [hD] at he
            simp only [Except.error.injEq] at he
            exact ⟨_, he.symm⟩
          · refine ⟨fun _ => .inr (.inr (.inr (.inl ⟨xh, rfl, hfx⟩))),
              fun _ => ⟨_, hD⟩⟩
          · intro sh' xh' salt' cipher h1 h2 h3 h4
            injection h2 with h2
            subst h2
            rw [h4] at hfx
            simp at hfx
        | some cipher =>
          by_cases hcl : cipher.length = 32
          · have hD : derive_fallback_key cfg crypto pass =
                .ok (List.zipWith Nat.xor cipher
                  (crypto.pbkdf2_hmac_sha256 pass salt
                    (max cfg.fallback.passphrase_iters 1) 32)) := by
              simp only [derive_fallback_key, hsalt, hxor, hfs, hfx]
              rw [show (cipher.length != 32) = false by simp [hcl]]
              simp only [Bool.false_eq_true, if_false]
              rw [hcl]
            refine ⟨?_, ?_, ?_⟩
            · intro e he
              rw [hD] at he
              cases he
            · constructor
              · intro ⟨e, he⟩
                rw [hD] at he
                cases he
              · rintro (h | h | ⟨a, ha, hb⟩ | ⟨a, ha, hb⟩ | ⟨a, c, ha, hb, hc⟩)
                · simp at h
                · simp at h
                · injection ha with ha
                  subst ha
                  rw [hb] at hfs
                  simp at hfs
                · injection ha with ha
                  subst ha
                  rw [hb] at hfx
                  simp at hfx
                · injection ha with ha
                  subst ha
                  rw [hb] at hfx
                  injection hfx with hfx
                  subst hfx
                  exact absurd hcl hc
            · intro sh' xh' salt' cipher' h1 h2 h3 h4 h5
              injection h1 with h1
              subst h1
              injection h2 with h2
              subst h2
              rw [h3] at hfs
              injection hfs with hfs
              subst hfs
              rw [h4] at hfx
              injection hfx with hfx
              subst hfx
              refine ⟨hD, ?_⟩
              rw [List.length_zipWith, hplen, hcl]
              exact Nat.min_self 32
          · have hD : derive_fallback_key cfg crypto pass =
                .error (.invalidConfig
                  ("fallback.passphrase_xor length must be 32 bytes, got " ++
                    toString cipher.length)) := by
              simp only [derive_fallback_key, hsalt, hxor, hfs, hfx]
              rw [show (cipher.length != 32) = true by simp [hcl]]
              simp only [if_true]
            refine ⟨?_, ?_, ?_⟩
            · intro e he
              rw [hD] at he
              simp only [Except.error.injEq] at he
              exact ⟨_, he.symm⟩
            · refine ⟨fun _ => .inr (.inr (.inr (.inr ⟨xh, cipher, rfl, hfx, hcl⟩))),
                fun _ => ⟨_, hD⟩⟩
            · intro sh' xh' salt' cipher' h1 h2 h3 h4 h5
              injection h2 with h2
              subst h2
              rw [h4] at hfx
              injection hfx with hfx
              subst hfx
              exact absurd h5 hcl

/-! ### Counterexamples and concrete witnesses -/

/-- C1 counterexample: with `max_attempts = 2` and a dataset outside the
policy, `unlock_with_retry` retries the `DatasetNotConfigured` failure and
surfaces `RetryExhausted` with two attempts, not `DatasetNotConfigured`. -/
theorem dataset_not_configured_retried_counterexample :
    (unlock_with_retry Fix.cfgRetry2 Fix.provFail Fix.crypto none "tank/other"
        Fix.opts ⟨(), Fix.fsNotFound⟩).1 =
      .error (.retryExhausted 2
        "[LC1200] dataset `tank/other` is not declared in policy")
    ∧ (unlock_with_retry Fix.cfgRetry2 Fix.provFail Fix.crypto none "tank/other"
        Fix.opts ⟨(), Fix.fsNotFound⟩).1 ≠
      .error (.datasetNotConfigured "tank/other") := by
  have h1 : (unlock_with_retry Fix.cfgRetry2 Fix.provFail Fix.crypto none "tank/other"
      Fix.opts ⟨(), Fix.fsNotFound⟩).1 =
      .error (.retryExhausted 2
        "[LC1200] dataset `tank/other` is not declared in policy") := rfl
  exact ⟨h1, by rw [h1]; simp⟩

/-- C1 witness for the amended statement, at a concrete configuration. -/
theorem dataset_not_configured_immediate_then_retried_witness :
    perform_unlock Fix.cfgRetry2 Fix.provFail Fix.crypto none "tank/other" Fix.opts
        ⟨(), Fix.fsNotFound⟩ =
      (.error (.datasetNotConfigured "tank/other"), ⟨(), Fix.fsNotFound⟩,
        ([] : List Effect))
    ∧ unlock_with_retry Fix.cfgRetry2 Fix.provFail Fix.crypto none "tank/other" Fix.opts
        ⟨(), Fix.fsNotFound⟩ =
      (.error (.retryExhausted (max Fix.cfgRetry2.retry.max_attempts 1)
        (LockchainError.display (.datasetNotConfigured "tank/other"))),
        ⟨(), Fix.fsNotFound⟩) :=
  dataset_not_configured_immediate_then_retried Fix.cfgRetry2 Fix.provFail Fix.crypto
    none "tank/other" Fix.opts ⟨(), Fix.fsNotFound⟩ (by decide)

/-- C2 counterexample: a permission-denied read (an I/O error that is not
not-found) still reaches the fallback passphrase when strict mode is off
and fallback is enabled — key resolution succeeds through the fallback
derivation instead of propagating the I/O error. -/
theorem usb_io_error_reaches_fallback_counterexample :
    key_material Fix.cfgFallback Fix.crypto Fix.fsPermDenied none "tank/secure"
        Fix.optsPass =
      (.ok (List.replicate 32 7), Fix.fsPermDenied,
        [.readFile "/run/lockchain/key.hex", .fallbackDerive])
    ∧ Effect.fallbackDerive ∈
        (key_material Fix.cfgFallback Fix.crypto Fix.fsPermDenied none "tank/secure"
          Fix.optsPass).2.2 := by
  have h1 : key_material Fix.cfgFallback Fix.crypto Fix.fsPermDenied none "tank/secure"
      Fix.optsPass =
      (.ok (List.replicate 32 7), Fix.fsPermDenied,
        [.readFile "/run/lockchain/key.hex", .fallbackDerive]) := rfl
  exact ⟨h1, by rw [h1]; simp⟩

/-- C2 witness for the amended statement: a not-found read with fallback
disabled surfaces `MissingKeySource`. -/
theorem key_material_usb_error_cases_witness :
    key_material Fix.cfg Fix.crypto Fix.fsNotFound none "tank/secure" Fix.opts =
      (.error (.missingKeySource "tank/secure"), Fix.fsNotFound,
        [.readFile "/run/lockchain/key.hex"]) := by
  have h := (key_material_usb_error_cases Fix.cfg Fix.crypto Fix.fsNotFound none
    "tank/secure" Fix.opts
    (.ioError ⟨.notFound, "No such file or directory (os error 2)"⟩)
    Fix.fsNotFound [.readFile "/run/lockchain/key.hex"] rfl rfl).2.1 rfl (.inr rfl)
  simpa using h

/-- C3 witness: hex key on disk, mismatching configured checksum, fallback
enabled with a passphrase supplied — the mismatch `ConfigError` surfaces
and the fallback is not consulted. -/
theorem unlock_checksum_mismatch_halts_fallback_witness :
    ∃ fs' tr, unlock Fix.cfgChecksum Fix.provStuck Fix.crypto none "tank/secure"
        Fix.optsPass ⟨(), Fix.fsHexKey⟩ =
      (.error (.invalidConfig ("usb.expected_sha256 mismatch: expected " ++ "ff" ++
        ", got " ++ hexEncodeString (Fix.crypto.sha256 Fix.key))), ⟨(), fs'⟩, tr)
      ∧ Effect.fallbackDerive ∉ tr :=
  unlock_checksum_mismatch_halts_fallback Fix.cfgChecksum Fix.provStuck Fix.crypto
    none "tank/secure" "tank/secure" ["tank/secure"] Fix.key true "ff" Fix.optsPass
    ⟨(), Fix.fsHexKey⟩ rfl rfl rfl rfl rfl rfl rfl (by decide)

/-- C4 witness: an already-unlocked root makes `unlock` a no-op success,
twice in a row. -/
theorem unlock_already_unlocked_is_noop_witness :
    unlock Fix.cfg Fix.provUnlocked Fix.crypto none "tank/secure" Fix.opts
        ⟨(), Fix.fsNotFound⟩ =
      (.ok ⟨"tank/secure", "tank/secure", [], true⟩, ⟨(), Fix.fsNotFound⟩,
        ([] : List Effect))
    ∧ unlock Fix.cfg Fix.provUnlocked Fix.crypto none "tank/secure" Fix.opts
        (unlock Fix.cfg Fix.provUnlocked Fix.crypto none "tank/secure" Fix.opts
          ⟨(), Fix.fsNotFound⟩).2.1 =
      (.ok ⟨"tank/secure", "tank/secure", [], true⟩, ⟨(), Fix.fsNotFound⟩,
        ([] : List Effect)) :=
  unlock_already_unlocked_is_noop Fix.cfg Fix.provUnlocked Fix.crypto none
    "tank/secure" "tank/secure" [] Fix.opts ⟨(), Fix.fsNotFound⟩ rfl rfl rfl rfl

/-- C5 witness: a provider that keeps the root locked after the key load
makes `unlock` fail with the still-locked `ProviderError`. -/
theorem unlock_fails_when_root_still_locked_witness :
    unlock Fix.cfg Fix.provStuck Fix.crypto none "tank/secure" Fix.optsOverride
        ⟨(), Fix.fsNotFound⟩ =
      (.error (.provider ("encryption root " ++ "tank/secure" ++
        " still locked after load-key")), ⟨(), Fix.fsNotFound⟩,
        [] ++ [.loadKeyTree "tank/secure" (List.replicate 32 0)]) :=
  unlock_fails_when_root_still_locked Fix.cfg Fix.provStuck Fix.crypto none
    "tank/secure" "tank/secure" ["tank/secure"] ["tank/secure"] ["tank/secure"]
    (List.replicate 32 0) Fix.fsNotFound [] () Fix.optsOverride ⟨(), Fix.fsNotFound⟩
    rfl rfl rfl rfl rfl rfl rfl rfl

/-- C6 witness: a raw 32-byte buffer, its hex encoding, and the invalid
input `"zz"`, decoded concretely. -/
theorem decode_key_bytes_spec_witness :
    decode_key_bytes "k" (List.replicate 32 171) = .ok (List.replicate 32 171, false)
    ∧ decode_key_bytes "k" (hexEncodeBytes (List.replicate 32 171)) =
        .ok (List.replicate 32 171, true)
    ∧ ∃ r, decode_key_bytes "k" [122, 122] = .error (.invalidHexKey "k" r) := by
  refine ⟨(decode_key_bytes_spec "k").1 (List.replicate 32 171) (by decide), ?_, ?_⟩
  · exact (decode_key_bytes_spec "k").2.1 (List.replicate 32 171)
      (hexEncodeBytes (List.replicate 32 171)) (by decide) (by decide) (by decide)
  · exact (decode_key_bytes_spec "k").2.2 [122, 122] (by decide)
      (.inr (.inl ⟨122, by decide, by decide, by decide⟩))

/-- C7 witness: derivation with salt `"00"`, a 64-zero masked value and
the constant-pad crypto model. -/
theorem derive_fallback_key_spec_witness :
    derive_fallback_key Fix.cfgFallback Fix.crypto [1, 2, 3] =
      .ok (List.zipWith Nat.xor (List.replicate 32 0)
        (Fix.crypto.pbkdf2_hmac_sha256 [1, 2, 3] [0]
          (max Fix.cfgFallback.fallback.passphrase_iters 1) 32))
    ∧ (List.zipWith Nat.xor (List.replicate 32 0)
        (Fix.crypto.pbkdf2_hmac_sha256 [1, 2, 3] [0]
          (max Fix.cfgFallback.fallback.passphrase_iters 1) 32)).length = 32 :=
  (derive_fallback_key_spec Fix.cfgFallback Fix.crypto [1, 2, 3]
    (fun _ _ _ n => by simp [Fix.crypto])).2.2
    "00" "0000000000000000000000000000000000000000000000000000000000000000"
    [0] (List.replicate 32 0) rfl rfl (by decide) (by decide) (by decide)

/-- C8 witness: a two-attempt policy against an always-failing provider
exhausts with two attempts; a three-attempt policy against a provider
failing twice then succeeding returns the success report. -/
theorem unlock_with_retry_exhaustion_and_recovery_witness :
    (unlock_with_retry Fix.cfgRetry2 Fix.provFail Fix.crypto none "tank/secure"
        Fix.opts ⟨(), Fix.fsNotFound⟩).1 =
      .error (.retryExhausted 2 "[LC2000] provider error: boom")
    ∧ (unlock_with_retry Fix.cfg Fix.provCount Fix.crypto none "tank/secure"
        Fix.optsOverride ⟨(2, true), Fix.fsNotFound⟩).1 =
      .ok ⟨"tank/secure", "tank/secure", ["tank/secure"], false⟩ := by
  constructor
  · have h := (unlock_with_retry_exhaustion_and_recovery Fix.cfgRetry2 Fix.provFail
      Fix.crypto none "tank/secure" Fix.opts ⟨(), Fix.fsNotFound⟩).1
      (fun _ => .provider "boom") (fun _ => rfl)
    rw [h]
    rfl
  · have h := (unlock_with_retry_exhaustion_and_recovery Fix.cfg Fix.provCount
      Fix.crypto none "tank/secure" Fix.optsOverride ⟨(2, true), Fix.fsNotFound⟩).2 2
      ⟨"tank/secure", "tank/secure", ["tank/secure"], false⟩
      (by intro i hi; interval_cases i <;>
        exact ⟨.provider "simulated failure", rfl⟩)
      rfl (by decide)
    rw [h]

/-- C9 witness: a concrete non-empty environment override redirects the
key-file read. -/
theorem key_hex_path_env_override_witness :
    Fix.cfg.key_hex_path (some "/mnt/usb/key.hex") = "/mnt/usb/key.hex"
    ∧ Fix.cfg.key_hex_path none = Fix.cfg.usb.key_hex_path
    ∧ Fix.cfg.key_hex_path (some "") = Fix.cfg.usb.key_hex_path
    ∧ ∃ rest, (key_material Fix.cfg Fix.crypto Fix.fsNotFound (some "/mnt/usb/key.hex")
        "tank/secure" Fix.opts).2.2 = Effect.readFile "/mnt/usb/key.hex" :: rest :=
  key_hex_path_env_override Fix.cfg Fix.crypto Fix.fsNotFound "tank/secure" Fix.opts
    "/mnt/usb/key.hex" (by decide) rfl

/-- C10 witness: the hex-encoded key file is rewritten to raw bytes with
mode 0400 even though the checksum check then fails. -/
theorem unlock_checksum_mismatch_still_rewrites_keyfile_witness :
    unlock Fix.cfgChecksum Fix.provStuck Fix.crypto none "tank/secure" Fix.opts
        ⟨(), Fix.fsHexKey⟩ =
      (.error (.invalidConfig ("usb.expected_sha256 mismatch: expected " ++ "ff" ++
        ", got " ++ hexEncodeString (Fix.crypto.sha256 Fix.key))),
        ⟨(), write_raw_key_file Fix.fsHexKey (Fix.cfgChecksum.key_hex_path none) Fix.key⟩,
        [.readFile (Fix.cfgChecksum.key_hex_path none),
          .writeRawKeyFile (Fix.cfgChecksum.key_hex_path none) Fix.key 256])
    ∧ write_raw_key_file Fix.fsHexKey (Fix.cfgChecksum.key_hex_path none) Fix.key
        (Fix.cfgChecksum.key_hex_path none) = .ok Fix.key
    ∧ Fix.key.length = 32 :=
  unlock_checksum_mismatch_still_rewrites_keyfile Fix.cfgChecksum Fix.provStuck
    Fix.crypto none "tank/secure" "tank/secure" ["tank/secure"]
    (hexEncodeBytes Fix.key) Fix.key "ff" Fix.opts ⟨(), Fix.fsHexKey⟩
    rfl rfl rfl rfl rfl rfl rfl rfl (by decide)

end Lockchain
